import Mathlib

/-!
# MemcLoad: parser workers, store workers, line source

A shallow embedding of `HW_13_GoLang_Concurrency/MemcLoad.go`.

* Go strings are Lean `String`s, `[]string` is `List String`.
* `uint32` / `uint64` values are `Nat`s, reduced modulo `2^32` / `2^64` wherever the
  Go code converts or adds.
* A buffered channel is the FIFO list of its buffered elements (head = oldest).
* `float64` is an arbitrary type `F` with a zero value; `strconv.ParseFloat`,
  `proto.Marshal` and the outcome of `memcache.Client.Set` are library behaviour and are
  taken as parameters (`Extern`).
* A Go run-time panic (index out of range, nil dereference) is an explicit outcome.
-/

set_option autoImplicit false

namespace MemcLoad

/-! ## Machine integers -/

/-- Two to the power 32: the number of `uint32` values. -/
def two32 : Nat := 4294967296

/-- Two to the power 64: the number of `uint64` values. -/
def two64 : Nat := 18446744073709551616

/-- The new value of a `uint64` cell after `atomic.AddUint64(cell, delta)`. The decrement
`x--` of a `uint64` is written `(two64 - 1 + x) % two64` below. -/
def atomic_AddUint64 (cell delta : Nat) : Nat := (cell + delta) % two64

/-! ## Library functions used by `parse` -/

/-- The digit loop of `strconv.ParseUint(s, 10, 64)`: the accumulated value, or `none` as
soon as a byte is not an ASCII digit. -/
def digitsValue : List Char → Nat → Option Nat
  | [], n => some n
  | c :: cs, n => if c.isDigit then digitsValue cs (10 * n + (c.toNat - 48)) else none

/-- The call `strconv.ParseUint(s, 10, 32)`: `some v` when `err == nil`. The empty string and
any non-digit byte are syntax errors, a value that does not fit 32 bits is a range error. -/
def ParseUint32 (s : String) : Option Nat :=
  match s.data with
  | [] => none
  | c :: cs =>
    match digitsValue (c :: cs) 0 with
    | none => none
    | some v => if v < two32 then some v else none

/-- The pieces of a character list between commas; the empty list gives one empty piece. -/
def splitComma : List Char → List (List Char)
  | [] => [[]]
  | c :: cs =>
    match splitComma cs with
    | [] => [[c]]
    | piece :: pieces => if c = ',' then [] :: piece :: pieces else (c :: piece) :: pieces

/-- The call `strings.Split(s, ",")`. -/
def strings_Split (s : String) : List String :=
  (splitComma s.data).map String.mk

/-! ## Data model -/

/-- Go `Wrapper`: the payload stored in memcached. -/
structure Wrapper (F : Type) where
  Apps : List Nat
  Lat : F
  Lon : F
  deriving DecidableEq, Repr

/-- Go `AppInfo`: one decoded unit travelling on channel `ch`. -/
structure AppInfo (F : Type) where
  dev_type : String
  dev_id : String
  app : Wrapper F
  deriving DecidableEq, Repr

/-- A `*memcache.Client`, identified by the server address it was created for. -/
structure Client where
  addr : String
  deriving DecidableEq, Repr

/-- One invocation of `Client.Set`: the receiver, the item key and the item value. -/
structure SetCall where
  client : Client
  key : String
  value : List Nat
  deriving DecidableEq, Repr

/-- Library behaviour the program depends on. -/
structure Extern (F : Type) where
  /-- The call `strconv.ParseFloat(s, 64)`: `some v` when `err == nil`. -/
  ParseFloat : String → Option F
  /-- The call `proto.Marshal(&apps.UserApps ...)`: `some bytes` when `err == nil`. -/
  Marshal : Wrapper F → Option (List Nat)
  /-- Whether the `n`-th `Set` invocation of the run (counting from 0) returns a non-nil
  error. -/
  SetFails : Nat → SetCall → Bool

/-- The zero value `Wrapper{}`. -/
def Wrapper.zero (F : Type) [Zero F] : Wrapper F := ⟨[], 0, 0⟩

/-! ## `parse` -/

/-- The loop `for _, app := range(strings.Split(line[4], ","))` of `parse`, started from the
current `wrapper.Apps` and `hasErrors`. -/
def parseApps : List String → List Nat → Bool → List Nat × Bool
  | [], apps, hasErrors => (apps, hasErrors)
  | app :: rest, apps, hasErrors =>
    match ParseUint32 app with
    | some val => parseApps rest (apps ++ [val % two32]) hasErrors
    | none => parseApps rest apps true

/-- What one iteration of the `parse` loop does with the line it received. -/
inductive ParseAction (F : Type) where
  /-- The branch `len(line) == 0`: `parseWg.Done()` and return. -/
  | done
  /-- An index expression `line[i]` out of range. -/
  | panic
  /-- The branch `hasErrors`: `atomic.AddUint64(numErrors, 1)`. -/
  | countError
  /-- The send `ch <- AppInfo ...`. -/
  | send (a : AppInfo F)
  deriving DecidableEq, Repr

/-- The body of the `parse` loop for a received line, in the order of the source: latitude,
longitude, apps, then the two identifier lengths. -/
def parseBody {F : Type} [Zero F] (ext : Extern F) (line : List String) : ParseAction F :=
  if line.length = 0 then ParseAction.done
  else
    match line.get? 2 with
    | none => ParseAction.panic
    | some f2 =>
      let (lat, e1) :=
        match ext.ParseFloat f2 with
        | some v => (v, false)
        | none => ((0 : F), true)
      match line.get? 3 with
      | none => ParseAction.panic
      | some f3 =>
        let (lon, e2) :=
          match ext.ParseFloat f3 with
          | some v => (v, e1)
          | none => ((0 : F), true)
        match line.get? 4 with
        | none => ParseAction.panic
        | some f4 =>
          let (apps, e3) := parseApps (strings_Split f4) [] e2
          match line.get? 0, line.get? 1 with
          | some f0, some f1 =>
            let e4 := if f0.length = 0 ∨ f1.length = 0 then true else e3
            if e4 then ParseAction.countError
            else ParseAction.send ⟨f0, f1, ⟨apps, lat, lon⟩⟩
          | _, _ => ParseAction.panic

/-- What a parser worker shares with the rest of the program: the store channel `ch` it
sends to and the counter `numErrors`. -/
structure ParseShared (F : Type) where
  ch : List (AppInfo F)
  numErrors : Nat
  deriving DecidableEq, Repr

/-- How a worker loop iteration ends. -/
inductive Flow (σ : Type) where
  /-- The loop goes on to its next iteration. -/
  | next (s : σ)
  /-- The worker signalled its wait group and returned. -/
  | returned (s : σ)
  /-- The goroutine panicked. -/
  | panicked
  deriving DecidableEq, Repr

/-- One iteration of the `parse` loop on a received line. -/
def parseIter {F : Type} [Zero F] (ext : Extern F) (line : List String) (s : ParseShared F) :
    Flow (ParseShared F) :=
  match parseBody ext line with
  | ParseAction.done => Flow.returned s
  | ParseAction.panic => Flow.panicked
  | ParseAction.countError => Flow.next { s with numErrors := atomic_AddUint64 s.numErrors 1 }
  | ParseAction.send a => Flow.next { s with ch := s.ch ++ [a] }

/-- Go `parse`, run on the lines the worker receives from `parseCh`, oldest first; when
they are used up the worker waits at the receive (`Flow.next`). -/
def parse {F : Type} [Zero F] (ext : Extern F) :
    List (List String) → ParseShared F → Flow (ParseShared F)
  | [], s => Flow.next s
  | line :: received, s =>
    match parseIter ext line s with
    | Flow.next s1 => parse ext received s1
    | Flow.returned s1 => Flow.returned s1
    | Flow.panicked => Flow.panicked

/-! ## Sample instantiation used to evaluate the definitions -/

/-- A toy decimal reader standing in for `strconv.ParseFloat`: digits with at most one
point, read as the pair (digits as a number, count of digits after the point). -/
def sampleDecimal : List Char → Nat → Option Nat → Option (Nat × Nat)
  | [], n, none => some (n, 0)
  | [], n, some k => some (n, k)
  | c :: cs, n, frac =>
    if c = '.' then
      match frac with
      | none => sampleDecimal cs n (some 0)
      | some _ => none
    else if c.isDigit then
      sampleDecimal cs (10 * n + (c.toNat - 48)) (frac.map (· + 1))
    else none

/-- A sample `Extern` on decimal pairs: the toy reader, an encoding that lists the app ids,
and a `Set` that fails exactly on keys ending in `!`. -/
def sampleExt : Extern (Nat × Nat) where
  ParseFloat := fun s =>
    match s.data with
    | [] => none
    | c :: cs => sampleDecimal (c :: cs) 0 none
  Marshal := fun w => some w.Apps
  SetFails := fun _ call => call.key.data.getLast? = some '!'

/-! ## `initializeConn` and `process` -/

/-- The call `memcache.New(server)`. -/
def memcache_New (server : String) : Client := ⟨server⟩

/-- The assignment `m[key] = value` on a Go map kept as an association list. -/
def mapSet {α : Type} (m : List (String × α)) (key : String) (value : α) : List (String × α) :=
  (key, value) :: m.filter (fun kv => kv.1 != key)

/-- Go `initializeConn`: one client per entry of `addresses`. -/
def initializeConn (addresses : List (String × String)) : List (String × Client) :=
  addresses.foldl (fun clients kv => mapSet clients kv.1 (memcache_New kv.2)) []

/-- The address map that `main` passes to `initializeConn`, from the four flag values. -/
def mainAddresses (idfa gaid adid dvid : String) : List (String × String) :=
  [("idfa", idfa), ("gaid", gaid), ("adid", adid), ("dvid", dvid)]

/-- What a store worker shares with the rest of the program: the counter `numErrors` and
the `Set` invocations made so far, oldest first. -/
structure StoreShared where
  numErrors : Nat
  sets : List SetCall
  deriving DecidableEq, Repr

/-- One iteration of the `process` loop on a received unit. The map index
`clients[location]` of an absent key is a nil `*memcache.Client`, and `Set` on a nil
receiver dereferences it: the goroutine panics. -/
def processIter {F : Type} (ext : Extern F) (clients : List (String × Client))
    (app : AppInfo F) (s : StoreShared) : Flow StoreShared :=
  let location := app.dev_type
  let wrapper := app.app
  let key := location ++ ":" ++ app.dev_id
  if app.dev_type = "quit" then Flow.returned s
  else
    match ext.Marshal wrapper with
    | none => Flow.next s
    | some data =>
      match clients.lookup location with
      | none => Flow.panicked
      | some c =>
        let call : SetCall := ⟨c, key, data⟩
        let s1 : StoreShared := { s with sets := s.sets ++ [call] }
        if ext.SetFails s.sets.length call then
          Flow.next { s1 with numErrors := atomic_AddUint64 s1.numErrors 1 }
        else Flow.next s1

/-- Go `process`, run on the units the worker receives from `ch`, oldest first; when they
are used up the worker waits at the receive (`Flow.next`). -/
def process {F : Type} (ext : Extern F) (clients : List (String × Client)) :
    List (AppInfo F) → StoreShared → Flow StoreShared
  | [], s => Flow.next s
  | app :: received, s =>
    match processIter ext clients app s with
    | Flow.next s1 => process ext clients received s1
    | Flow.returned s1 => Flow.returned s1
    | Flow.panicked => Flow.panicked

/-! ## `readFiles` -/

/-- The error returned by `csvreader.Read()`, as far as `readFiles` tells errors apart. -/
inductive ReadErr where
  /-- The error `io.EOF`. -/
  | EOF
  /-- A `*csv.ParseError` whose `Err` is `csv.ErrFieldCount`. -/
  | ErrFieldCount
  /-- Any other non-nil error. -/
  | other
  deriving DecidableEq, Repr

/-- One result `line, err := csvreader.Read()`. -/
structure ReadResult where
  line : List String
  err : Option ReadErr
  deriving DecidableEq, Repr

/-- The contract of `csv.Reader` with `FieldsPerRecord = 5`: a result without error has
exactly 5 fields. -/
def ReadResult.wellFormed (r : ReadResult) : Prop :=
  r.err = none → r.line.length = 5

/-- What `readFiles` shares with the rest of the program. -/
structure ReadShared where
  parseCh : List (List String)
  numLines : Nat
  numErrors : Nat
  deriving DecidableEq, Repr

/-- How an iteration of the inner `for` of `readFiles` ends. -/
inductive Loop (σ : Type) where
  /-- The loop runs its next iteration (`continue`, or the end of the body). -/
  | again (s : σ)
  /-- The statement `break`. -/
  | broke (s : σ)
  deriving DecidableEq, Repr

/-- What an iteration of the inner `for` of `readFiles` does after `*numLines++`. -/
inductive ReadAction where
  /-- The branch `err == io.EOF`: `*numLines--` and `break`. -/
  | brk
  /-- The field-count branch: `atomic.AddUint64(numErrors, 1)` and `continue`. -/
  | countError
  /-- The send `parseCh <- line`. -/
  | push (line : List String)
  deriving DecidableEq, Repr

/-- The error checks of the inner `for` of `readFiles` on `line, err := csvreader.Read()`:
only `io.EOF` and the field-count error leave the iteration, every other result reaches
`parseCh <- line`. -/
def readBranch (r : ReadResult) : ReadAction :=
  match r.err with
  | some ReadErr.EOF => ReadAction.brk
  | some ReadErr.ErrFieldCount => ReadAction.countError
  | _ => ReadAction.push r.line

/-- One iteration of the inner `for` of `readFiles`, given what `csvreader.Read()` returns:
`*numLines++`, then the error checks, then `parseCh <- line`. -/
def readIter (r : ReadResult) (s : ReadShared) : Loop ReadShared :=
  let s1 : ReadShared := { s with numLines := (s.numLines + 1) % two64 }
  match readBranch r with
  | ReadAction.brk => Loop.broke { s1 with numLines := (two64 - 1 + s1.numLines) % two64 }
  | ReadAction.countError =>
    Loop.again { s1 with numErrors := atomic_AddUint64 s1.numErrors 1 }
  | ReadAction.push line => Loop.again { s1 with parseCh := s1.parseCh ++ [line] }

/-- The state an iteration ends in. -/
def Loop.state {σ : Type} : Loop σ → σ
  | Loop.again s => s
  | Loop.broke s => s

/-- The inner `for` of `readFiles` over the successive results of `csvreader.Read()`; a
reader whose results are used up returns `io.EOF`, on which the loop breaks. -/
def readLoop : List ReadResult → ReadShared → ReadShared
  | [], s => (readIter ⟨[], some ReadErr.EOF⟩ s).state
  | r :: rs, s =>
    match readIter r s with
    | Loop.again s1 => readLoop rs s1
    | Loop.broke s1 => s1

/-- One input file: it cannot be opened or unzipped, or it yields a sequence of read
results. -/
inductive FileInput where
  /-- The call `os.Open` or `gzip.NewReader` fails. -/
  | unopenable
  /-- The successive results of `csvreader.Read()`. -/
  | stream (results : List ReadResult)
  deriving DecidableEq, Repr

/-- Go `readFiles`; `none` is `log.Fatal`. The final rename of a file is not modelled. -/
def readFiles : List FileInput → ReadShared → Option ReadShared
  | [], s => some s
  | FileInput.unopenable :: _, _ => none
  | FileInput.stream results :: files, s => readFiles files (readLoop results s)

/-! ## The whole program: `main`, its workers and the two channels

The goroutines are interleaved one step at a time; a step is everything a goroutine does
up to and including its next channel operation, wait-group operation or counter update.
A goroutine that cannot proceed (full or empty channel, unreleased wait group) has no
step. A panic in any goroutine ends the program. -/

/-- The buffer size of both channels: `make(chan AppInfo, 1000)` and
`make(chan []string, 1000)`. -/
def chanCap : Nat := 1000

/-- Where the main goroutine stands, from the call of `readFiles` on. -/
inductive MainPc where
  /-- Head of `for _, file := range(files)` in `readFiles`, with the files left. -/
  | nextFile (files : List FileInput)
  /-- Head of the inner `for`, with the reads left in the current file. -/
  | loopTop (rest : List ReadResult) (files : List FileInput)
  /-- At `parseCh <- line`. -/
  | pushLine (line : List String) (rest : List ReadResult) (files : List FileInput)
  /-- At the send of the quit unit on `ch` in iteration `i` of the quit loop. -/
  | quitCh (i : Nat)
  /-- At `parseCh <- make([]string, 0)` in iteration `i` of the quit loop. -/
  | quitParseCh (i : Nat)
  /-- At `close(parseCh)`. -/
  | closeParseCh
  /-- At `parseWg.Wait()`. -/
  | waitParse
  /-- At `close(ch)`. -/
  | closeCh
  /-- At `wg.Wait()`. -/
  | waitStore
  /-- After `wg.Wait()`: the error rate is logged and `main` returns. -/
  | finished
  /-- After `log.Fatal`: the process has exited. -/
  | fatal
  deriving DecidableEq, Repr

/-- Where a `parse` goroutine stands. -/
inductive ParserPc (F : Type) where
  /-- At the receive `<-parseCh`. -/
  | recv
  /-- At the send `ch <- AppInfo ...` of the unit it built. -/
  | sending (a : AppInfo F)
  /-- Returned. -/
  | exited
  deriving DecidableEq, Repr

/-- Where a `process` goroutine stands. -/
inductive StorePc where
  /-- At the receive `<-ch`. -/
  | recv
  /-- Returned. -/
  | exited
  deriving DecidableEq, Repr

/-- The state of the running program. -/
structure State (F : Type) where
  main : MainPc
  parsers : List (ParserPc F)
  stores : List StorePc
  parseCh : List (List String)
  parseChClosed : Bool
  ch : List (AppInfo F)
  chClosed : Bool
  parseWg : Nat
  wg : Nat
  numLines : Nat
  numErrors : Nat
  sets : List SetCall
  crashed : Bool
  deriving DecidableEq, Repr

/-- A goroutine of the program. -/
inductive Actor where
  /-- The main goroutine. -/
  | main
  /-- The `i`-th `parse` goroutine. -/
  | parser (i : Nat)
  /-- The `i`-th `process` goroutine. -/
  | store (i : Nat)
  deriving DecidableEq, Repr

/-- The quit unit `AppInfo{"quit", "", Wrapper{}}` sent by `main`. -/
def quitUnit (F : Type) [Zero F] : AppInfo F := ⟨"quit", "", Wrapper.zero F⟩

/-- The zero value `AppInfo{}` that a receive on a closed, drained `ch` yields. -/
def zeroUnit (F : Type) [Zero F] : AppInfo F := ⟨"", "", Wrapper.zero F⟩

/-- The state in which `main` calls `readFiles`: both wait groups hold `workers`, the
`workers` pairs of goroutines are started, the channels are empty, the counters zero. -/
def initState {F : Type} (workers : Nat) (files : List FileInput) : State F where
  main := MainPc.nextFile files
  parsers := List.replicate workers ParserPc.recv
  stores := List.replicate workers StorePc.recv
  parseCh := []
  parseChClosed := false
  ch := []
  chClosed := false
  parseWg := workers
  wg := workers
  numLines := 0
  numErrors := 0
  sets := []
  crashed := false

/-- The state after a panic. -/
def State.crash {F : Type} (s : State F) : State F := { s with crashed := true }

/-- Where `main` goes when the quit loop tests `i < *workers`. -/
def quitLoopHead (workers i : Nat) : MainPc :=
  if i < workers then MainPc.quitCh i else MainPc.closeParseCh

/-- One step of the main goroutine. -/
def stepMain {F : Type} [Zero F] (workers : Nat) (s : State F) : Option (State F) :=
  match s.main with
  | MainPc.nextFile [] => some { s with main := quitLoopHead workers 0 }
  | MainPc.nextFile (FileInput.unopenable :: _) => some { s with main := MainPc.fatal }
  | MainPc.nextFile (FileInput.stream results :: files) =>
    some { s with main := MainPc.loopTop results files }
  | MainPc.loopTop [] files =>
    some { s with numLines := (two64 - 1 + (s.numLines + 1) % two64) % two64,
                  main := MainPc.nextFile files }
  | MainPc.loopTop (r :: rest) files =>
    match readBranch r with
    | ReadAction.brk =>
      some { s with numLines := (two64 - 1 + (s.numLines + 1) % two64) % two64,
                    main := MainPc.nextFile files }
    | ReadAction.countError =>
      some { s with numLines := (s.numLines + 1) % two64,
                    numErrors := atomic_AddUint64 s.numErrors 1,
                    main := MainPc.loopTop rest files }
    | ReadAction.push line =>
      some { s with numLines := (s.numLines + 1) % two64,
                    main := MainPc.pushLine line rest files }
  | MainPc.pushLine line rest files =>
    if s.parseChClosed then some s.crash
    else if s.parseCh.length < chanCap then
      some { s with parseCh := s.parseCh ++ [line], main := MainPc.loopTop rest files }
    else none
  | MainPc.quitCh i =>
    if s.chClosed then some s.crash
    else if s.ch.length < chanCap then
      some { s with ch := s.ch ++ [quitUnit F], main := MainPc.quitParseCh i }
    else none
  | MainPc.quitParseCh i =>
    if s.parseChClosed then some s.crash
    else if s.parseCh.length < chanCap then
      some { s with parseCh := s.parseCh ++ [[]], main := quitLoopHead workers (i + 1) }
    else none
  | MainPc.closeParseCh =>
    if s.parseChClosed then some s.crash
    else some { s with parseChClosed := true, main := MainPc.waitParse }
  | MainPc.waitParse => if s.parseWg = 0 then some { s with main := MainPc.closeCh } else none
  | MainPc.closeCh =>
    if s.chClosed then some s.crash
    else some { s with chClosed := true, main := MainPc.waitStore }
  | MainPc.waitStore => if s.wg = 0 then some { s with main := MainPc.finished } else none
  | MainPc.finished => none
  | MainPc.fatal => none

/-- What the `i`-th `parse` goroutine does with a line it received. -/
def parserReceived {F : Type} [Zero F] (ext : Extern F) (i : Nat) (line : List String)
    (s : State F) : State F :=
  match parseBody ext line with
  | ParseAction.done =>
    if s.parseWg = 0 then s.crash
    else { s with parseWg := s.parseWg - 1, parsers := s.parsers.set i ParserPc.exited }
  | ParseAction.panic => s.crash
  | ParseAction.countError => { s with numErrors := atomic_AddUint64 s.numErrors 1 }
  | ParseAction.send a => { s with parsers := s.parsers.set i (ParserPc.sending a) }

/-- One step of the `i`-th `parse` goroutine. A receive on the closed, drained `parseCh`
only logs and loops. -/
def stepParser {F : Type} [Zero F] (ext : Extern F) (i : Nat) (s : State F) :
    Option (State F) :=
  match s.parsers.get? i with
  | some ParserPc.recv =>
    match s.parseCh with
    | line :: queue => some (parserReceived ext i line { s with parseCh := queue })
    | [] => if s.parseChClosed then some s else none
  | some (ParserPc.sending a) =>
    if s.chClosed then some s.crash
    else if s.ch.length < chanCap then
      some { s with ch := s.ch ++ [a], parsers := s.parsers.set i ParserPc.recv }
    else none
  | some ParserPc.exited => none
  | none => none

/-- What the `i`-th `process` goroutine does with a unit it received. -/
def storeReceived {F : Type} (ext : Extern F) (clients : List (String × Client)) (i : Nat)
    (app : AppInfo F) (s : State F) : State F :=
  match processIter ext clients app ⟨s.numErrors, s.sets⟩ with
  | Flow.next shared => { s with numErrors := shared.numErrors, sets := shared.sets }
  | Flow.returned _ =>
    if s.wg = 0 then s.crash
    else { s with wg := s.wg - 1, stores := s.stores.set i StorePc.exited }
  | Flow.panicked => s.crash

/-- One step of the `i`-th `process` goroutine. -/
def stepStore {F : Type} [Zero F] (ext : Extern F) (clients : List (String × Client))
    (i : Nat) (s : State F) : Option (State F) :=
  match s.stores.get? i with
  | some StorePc.recv =>
    match s.ch with
    | app :: queue => some (storeReceived ext clients i app { s with ch := queue })
    | [] => if s.chClosed then some (storeReceived ext clients i (zeroUnit F) s) else none
  | some StorePc.exited => none
  | none => none

/-- One step of the program by the chosen goroutine; `none` when that goroutine cannot
move or the program is over (panic, `log.Fatal`, or `main` returned). -/
def step {F : Type} [Zero F] (ext : Extern F) (clients : List (String × Client))
    (workers : Nat) (a : Actor) (s : State F) : Option (State F) :=
  if s.crashed then none
  else if s.main = MainPc.finished ∨ s.main = MainPc.fatal then none
  else
    match a with
    | Actor.main => stepMain workers s
    | Actor.parser i => stepParser ext i s
    | Actor.store i => stepStore ext clients i s

/-- The state after the goroutines of a schedule took their steps in turn. -/
def run {F : Type} [Zero F] (ext : Extern F) (clients : List (String × Client))
    (workers : Nat) : List Actor → State F → Option (State F)
  | [], s => some s
  | a :: rest, s =>
    match step ext clients workers a s with
    | some s1 => run ext clients workers rest s1
    | none => none

/-- The number of reads the files hold. -/
def inputSize : List FileInput → Nat
  | [] => 0
  | FileInput.unopenable :: files => inputSize files
  | FileInput.stream results :: files => results.length + inputSize files

/-! ## Bookkeeping used to state the counter invariant -/

/-- Whether a `parse` goroutine holds a unit it has not sent yet. -/
def ParserPc.isSending {F : Type} : ParserPc F → Bool
  | ParserPc.sending _ => true
  | _ => false

/-- The reads `main` has not made yet. -/
def MainPc.remaining : MainPc → Nat
  | MainPc.nextFile files => inputSize files
  | MainPc.loopTop rest files => rest.length + inputSize files
  | MainPc.pushLine _ rest files => rest.length + inputSize files
  | _ => 0

/-- The line `main` has read and not yet pushed: 1 at `parseCh <- line`, else 0. -/
def MainPc.holding : MainPc → Nat
  | MainPc.pushLine _ _ _ => 1
  | _ => 0

/-- The records under way: the line held by `main`, the non-empty lines buffered in
`parseCh`, the units held by parser workers, and the units buffered in `ch` whose device
type is not `quit`. -/
def inFlight {F : Type} (s : State F) : Nat :=
  s.main.holding + s.parseCh.countP (fun l => decide (l ≠ [])) +
    s.parsers.countP ParserPc.isSending +
    s.ch.countP (fun u => decide (u.dev_type ≠ "quit"))

/-- The reads of one file that return a record or a non-EOF error, up to the first
`io.EOF`. -/
def beforeEOF : List ReadResult → Nat
  | [] => 0
  | r :: rest =>
    match readBranch r with
    | ReadAction.brk => 0
    | _ => beforeEOF rest + 1

/-- The records `readFiles` reads from the files, up to the first file that cannot be
opened. -/
def linesRead : List FileInput → Nat
  | [] => 0
  | FileInput.unopenable :: _ => 0
  | FileInput.stream results :: files => beforeEOF results + linesRead files

/-- The records `main` has still to read. -/
def MainPc.linesLeft : MainPc → Nat
  | MainPc.nextFile files => linesRead files
  | MainPc.loopTop rest files => beforeEOF rest + linesRead files
  | MainPc.pushLine _ rest files => beforeEOF rest + linesRead files
  | _ => 0

/-- The counter invariant for an input of at most `N` reads and `T` records: every counted
error and every record under way is one of the lines counted so far; the lines counted
so far plus the reads still to make do not exceed `N`; the lines counted so far plus the
records still to read are `T`. -/
def CounterInv {F : Type} (N T : Nat) (s : State F) : Prop :=
  s.numErrors + inFlight s ≤ s.numLines ∧ s.numLines + s.main.remaining ≤ N ∧
    s.numLines + s.main.linesLeft = T

/-! ## Sample runs used to evaluate the program model -/

/-- The registry `main` builds from the default flag values. -/
def sampleClients : List (String × Client) :=
  initializeConn
    (mainAddresses "127.0.0.1:13101" "127.0.0.1:13102" "127.0.0.1:13103" "127.0.0.1:13104")

/-- One file with four reads: a valid record that is stored, a valid record whose `Set`
fails, a record with an empty device id, and a record with a wrong field count. -/
def sampleFiles : List FileInput :=
  [FileInput.stream
    [⟨["idfa", "id1", "55.55", "37.37", "42,43"], none⟩,
     ⟨["gaid", "id2!", "55.55", "37.37", "42"], none⟩,
     ⟨["idfa", "", "55.55", "37.37", "42"], none⟩,
     ⟨["adid", "id4"], some ReadErr.ErrFieldCount⟩]]

/-- A complete interleaving of `main` and two pairs of workers over `sampleFiles`. -/
def sampleSchedule : List Actor :=
  [Actor.main, Actor.main, Actor.main, Actor.parser 1, Actor.main, Actor.main,
   Actor.parser 0, Actor.parser 1, Actor.store 0, Actor.main, Actor.main, Actor.main,
   Actor.parser 0, Actor.parser 1, Actor.store 1, Actor.main, Actor.main, Actor.main,
   Actor.main, Actor.main, Actor.main, Actor.parser 1, Actor.parser 0, Actor.store 1,
   Actor.store 0, Actor.main, Actor.main, Actor.main, Actor.main]

/-- The state `sampleSchedule` ends in: `main` returned, 4 lines and 3 errors counted. -/
def sampleFinal : State (Nat × Nat) where
  main := MainPc.finished
  parsers := [ParserPc.exited, ParserPc.exited]
  stores := [StorePc.exited, StorePc.exited]
  parseCh := []
  parseChClosed := true
  ch := []
  chClosed := true
  parseWg := 0
  wg := 0
  numLines := 4
  numErrors := 3
  sets := [⟨⟨"127.0.0.1:13101"⟩, "idfa:id1", [42, 43]⟩, ⟨⟨"127.0.0.1:13102"⟩, "gaid:id2!", [42]⟩]
  crashed := false

/-- One file with the single record of an unregistered device type. -/
def crashFiles : List FileInput :=
  [FileInput.stream [⟨["idfa1", "id1", "55.55", "37.37", "42,43"], none⟩]]

/-- With one pair of workers: `main` reads and pushes the record, the parser worker
receives it and sends the unit, the store worker receives the unit. -/
def crashSchedule : List Actor :=
  [Actor.main, Actor.main, Actor.main, Actor.parser 0, Actor.parser 0, Actor.store 0]

/-- A valid record of a registered device type. -/
def validRecord : ReadResult := ⟨["idfa", "id1", "55.55", "37.37", "42,43"], none⟩

/-- The unit the parser worker builds from `validRecord`. -/
def validUnit : AppInfo (Nat × Nat) := ⟨"idfa", "id1", ⟨[42, 43], (5555, 2), (3737, 2)⟩⟩

/-- One file with 1001 valid records. -/
def deadlockFiles : List FileInput := [FileInput.stream (List.replicate 1001 validRecord)]

/-- With one pair of workers: `main` fills `parseCh` with 1000 lines and reads the last
one; the parser worker receives the first line; `main` pushes the last line, leaves
`readFiles` and sends the quit unit on `ch`; the store worker receives the quit unit and
returns; the parser worker sends its unit and receives the next line; `main` pushes the
empty line, closes `parseCh` and waits; the parser worker goes on sending and
receiving. -/
def deadlockSchedule : List Actor :=
  [Actor.main] ++ (List.replicate 1000 [Actor.main, Actor.main]).flatten ++
  [Actor.main, Actor.parser 0, Actor.main, Actor.main, Actor.main, Actor.main,
   Actor.store 0, Actor.parser 0, Actor.parser 0, Actor.main, Actor.main] ++
  (List.replicate 999 [Actor.parser 0, Actor.parser 0]).flatten

/-- The state `deadlockSchedule` ends in: `ch` is full of 1000 units nobody will receive,
the parser worker holds the last unit, the store worker has returned, `main` waits for
the parser worker. -/
def deadlockState : State (Nat × Nat) where
  main := MainPc.waitParse
  parsers := [ParserPc.sending validUnit]
  stores := [StorePc.exited]
  parseCh := [[]]
  parseChClosed := true
  ch := List.replicate 1000 validUnit
  chClosed := false
  parseWg := 1
  wg := 0
  numLines := 1001
  numErrors := 0
  sets := []
  crashed := false

/-! # Theorems -/

/-! ## Auxiliary facts -/

theorem string_length_eq_zero_iff (s : String) : s.length = 0 ↔ s = "" := by
  cases s with
  | mk data =>
    cases data with
    | nil => exact ⟨fun _ => rfl, fun _ => rfl⟩
    | cons c cs =>
      constructor
      · intro h
        simp [String.length] at h
      · intro h
        have h2 := congrArg String.data h
        simp at h2

theorem ParseUint32_lt {s : String} {v : Nat} (h : ParseUint32 s = some v) : v < two32 := by
  unfold ParseUint32 at h
  split at h
  · simp at h
  · split at h
    · simp at h
    · split at h
      · simp at h
        omega
      · simp at h

theorem splitComma_ne_nil (cs : List Char) : splitComma cs ≠ [] := by
  cases cs with
  | nil => simp [splitComma]
  | cons c cs =>
    simp only [splitComma]
    split
    · simp
    · split <;> simp

theorem strings_Split_ne_nil (s : String) : strings_Split s ≠ [] := by
  simp [strings_Split, splitComma_ne_nil]

/-- The app loop keeps the parsed values in order and raises the flag at any element that
fails to parse. -/
theorem parseApps_eq (l : List String) (apps : List Nat) (hasErrors : Bool) :
    parseApps l apps hasErrors =
      (apps ++ l.filterMap ParseUint32,
        hasErrors || l.any (fun a => (ParseUint32 a).isNone)) := by
  induction l generalizing apps hasErrors with
  | nil => simp [parseApps]
  | cons a rest ih =>
    cases h : ParseUint32 a with
    | none => simp [parseApps, h, ih]
    | some v =>
      have hv : v % two32 = v := Nat.mod_eq_of_lt (ParseUint32_lt h)
      simp [parseApps, h, ih, hv]

/-- The body of `parse` on a 5-field line. -/
theorem parseBody_five {F : Type} [Zero F] (ext : Extern F) (f0 f1 f2 f3 f4 : String) :
    parseBody ext [f0, f1, f2, f3, f4] =
      match ext.ParseFloat f2, ext.ParseFloat f3 with
      | some lat, some lon =>
        if f0 = "" ∨ f1 = "" ∨ (strings_Split f4).any (fun a => (ParseUint32 a).isNone) = true
        then ParseAction.countError
        else ParseAction.send ⟨f0, f1, ⟨(strings_Split f4).filterMap ParseUint32, lat, lon⟩⟩
      | _, _ => ParseAction.countError := by
  simp only [parseBody, List.length_cons, List.length_nil, List.get?, parseApps_eq,
    string_length_eq_zero_iff]
  cases h2 : ext.ParseFloat f2 <;> cases h3 : ext.ParseFloat f3 <;>
    by_cases h0 : f0 = "" <;> by_cases h1 : f1 = "" <;>
    cases h4 : (strings_Split f4).any (fun a => (ParseUint32 a).isNone) <;>
    simp [h0, h1, h4]

/-! ## `strings.Split` against joining with commas -/

theorem splitComma_of_not_mem : ∀ (p : List Char), ',' ∉ p → splitComma p = [p]
  | [], _ => rfl
  | c :: cs, h => by
    have hc : c ≠ ',' := fun e => h (by simp [e])
    have hcs : ',' ∉ cs := fun e => h (by simp [e])
    simp [splitComma, splitComma_of_not_mem cs hcs, hc]

theorem splitComma_append_comma :
    ∀ (p rest : List Char), ',' ∉ p → splitComma (p ++ ',' :: rest) = p :: splitComma rest
  | [], rest, _ => by
    cases h : splitComma rest with
    | nil => exact absurd h (splitComma_ne_nil rest)
    | cons a b => simp [splitComma, h]
  | c :: cs, rest, h => by
    have hc : c ≠ ',' := fun e => h (by simp [e])
    have hcs : ',' ∉ cs := fun e => h (by simp [e])
    simp [splitComma, splitComma_append_comma cs rest hcs, hc]

/-- Joining comma-free pieces with commas and splitting again gives the pieces back. -/
theorem splitComma_intercalate :
    ∀ (parts : List (List Char)), parts ≠ [] → (∀ p ∈ parts, ',' ∉ p) →
      splitComma (List.intercalate [','] parts) = parts
  | [], h, _ => absurd rfl h
  | [p], _, h => by
    simpa [List.intercalate] using splitComma_of_not_mem p (h p (by simp))
  | p :: q :: ps, _, h => by
    have hp : ',' ∉ p := h p (by simp)
    have ih := splitComma_intercalate (q :: ps) (by simp)
      (fun x hx => h x (List.mem_cons_of_mem _ hx))
    have e : List.intercalate [','] (p :: q :: ps) =
        p ++ ',' :: List.intercalate [','] (q :: ps) := by
      simp [List.intercalate, List.intersperse]
    rw [e, splitComma_append_comma p _ hp, ih]

theorem digitsValue_isDigit : ∀ (cs : List Char) (n v : Nat),
    digitsValue cs n = some v → ∀ c ∈ cs, c.isDigit = true
  | [], _, _, _, c, hc => by simp at hc
  | d :: cs, n, v, h, c, hc => by
    simp only [digitsValue] at h
    split at h
    · rename_i hd
      rcases List.mem_cons.mp hc with e | e
      · rw [e]; exact hd
      · exact digitsValue_isDigit cs _ v h c e
    · simp at h

/-- A string that parses as an unsigned integer holds no comma. -/
theorem comma_not_mem_of_ParseUint32 {s : String} {v : Nat} (h : ParseUint32 s = some v) :
    ',' ∉ s.data := by
  intro hmem
  unfold ParseUint32 at h
  split at h
  · simp at h
  · rename_i c cs hs
    split at h
    · simp at h
    · rename_i w hw
      rw [hs] at hmem
      have := digitsValue_isDigit (c :: cs) 0 w hw ',' hmem
      exact absurd this (by decide)

/-- The call `strings.Split` on parseable elements joined by commas returns the elements. -/
theorem strings_Split_joined (elems : List String) (vals : List Nat) (hne : elems ≠ [])
    (h : elems.map ParseUint32 = vals.map some) :
    strings_Split ⟨List.intercalate [','] (elems.map String.data)⟩ = elems := by
  have hno : ∀ p ∈ elems.map String.data, ',' ∉ p := by
    intro p hp
    obtain ⟨e, he, rfl⟩ := List.mem_map.mp hp
    have hsome : ∃ v, ParseUint32 e = some v := by
      have hm : ParseUint32 e ∈ elems.map ParseUint32 := List.mem_map.mpr ⟨e, he, rfl⟩
      rw [h] at hm
      obtain ⟨v, _, hv⟩ := List.mem_map.mp hm
      exact ⟨v, hv.symm⟩
    obtain ⟨v, hv⟩ := hsome
    exact comma_not_mem_of_ParseUint32 hv
  have hne2 : elems.map String.data ≠ [] := by simpa using hne
  simp only [strings_Split]
  rw [splitComma_intercalate _ hne2 hno, List.map_map]
  have : (String.mk ∘ String.data) = id := by
    funext s
    rfl
  rw [this, List.map_id]

theorem filterMap_eq_of_map_eq_some {α β : Type} (f : α → Option β) :
    ∀ (l : List α) (vals : List β), l.map f = vals.map some → l.filterMap f = vals
  | [], [], _ => rfl
  | [], _ :: _, h => by simp at h
  | _ :: _, [], h => by simp at h
  | a :: l, v :: vals, h => by
    simp only [List.map_cons, List.cons.injEq] at h
    simp [List.filterMap_cons, h.1, filterMap_eq_of_map_eq_some f l vals h.2]

theorem any_isNone_eq_false_of_map_eq_some {α β : Type} (f : α → Option β) :
    ∀ (l : List α) (vals : List β), l.map f = vals.map some →
      l.any (fun a => (f a).isNone) = false
  | [], _, _ => rfl
  | _ :: _, [], h => by simp at h
  | a :: l, v :: vals, h => by
    simp only [List.map_cons, List.cons.injEq] at h
    simp [List.any_cons, h.1, any_isNone_eq_false_of_map_eq_some f l vals h.2]

/-- C1: a 5-field record with non-empty device type and device id, parseable latitude and
longitude, and an app list whose every element parses as a 32-bit unsigned integer makes
the parser worker enqueue exactly one unit carrying fields 0 and 1, the parsed
coordinates and the parsed app ids in their original order (duplicates kept), with the
error counter unchanged. -/
theorem parse_valid_record_enqueues_one {F : Type} [Zero F] (ext : Extern F)
    (f0 f1 f2 f3 f4 : String) (lat lon : F) (vals : List Nat) (s : ParseShared F)
    (h0 : f0 ≠ "") (h1 : f1 ≠ "")
    (hlat : ext.ParseFloat f2 = some lat) (hlon : ext.ParseFloat f3 = some lon)
    (happs : (strings_Split f4).map ParseUint32 = vals.map some) :
    parseIter ext [f0, f1, f2, f3, f4] s =
      Flow.next ⟨s.ch ++ [⟨f0, f1, ⟨vals, lat, lon⟩⟩], s.numErrors⟩ := by
  have hany := any_isNone_eq_false_of_map_eq_some ParseUint32 _ _ happs
  have hfm := filterMap_eq_of_map_eq_some ParseUint32 _ _ happs
  simp [parseIter, parseBody_five, hlat, hlon, h0, h1, hany, hfm]

theorem parse_valid_record_enqueues_one_witness :
    parseIter sampleExt ["idfa1", "id1", "55.55", "37.37", "42,43,42"] ⟨[], 7⟩ =
      Flow.next ⟨[] ++ [⟨"idfa1", "id1", ⟨[42, 43, 42], (5555, 2), (3737, 2)⟩⟩], 7⟩ :=
  parse_valid_record_enqueues_one sampleExt "idfa1" "id1" "55.55" "37.37" "42,43,42"
    (5555, 2) (3737, 2) [42, 43, 42] ⟨[], 7⟩ (by decide) (by decide) (by decide) (by decide)
    (by decide)

/-- C2: a 5-field record with an empty device type, or an empty device id, or an
unparseable latitude or longitude, or an app list without any parseable element, makes
the parser worker enqueue nothing and add exactly 1 to the error counter, however many
of these faults the record has. -/
theorem parse_invalid_record_counts_once {F : Type} [Zero F] (ext : Extern F)
    (f0 f1 f2 f3 f4 : String) (s : ParseShared F)
    (h : f0 = "" ∨ f1 = "" ∨ ext.ParseFloat f2 = none ∨ ext.ParseFloat f3 = none ∨
      ∀ e ∈ strings_Split f4, ParseUint32 e = none) :
    parseIter ext [f0, f1, f2, f3, f4] s =
      Flow.next ⟨s.ch, atomic_AddUint64 s.numErrors 1⟩ := by
  have key : parseBody ext [f0, f1, f2, f3, f4] = ParseAction.countError := by
    rw [parseBody_five]
    rcases h with h | h | h | h | h
    · cases ext.ParseFloat f2 <;> cases ext.ParseFloat f3 <;> simp [h]
    · cases ext.ParseFloat f2 <;> cases ext.ParseFloat f3 <;> simp [h]
    · simp [h]
    · cases ext.ParseFloat f2 <;> simp [h]
    · have hany : (strings_Split f4).any (fun a => (ParseUint32 a).isNone) = true := by
        cases hs : strings_Split f4 with
        | nil => exact absurd hs (strings_Split_ne_nil f4)
        | cons a rest =>
          have ha : ParseUint32 a = none := h a (by simp [hs])
          simp [ha]
      cases ext.ParseFloat f2 <;> cases ext.ParseFloat f3 <;> simp [hany]
  simp [parseIter, key]

theorem parse_invalid_record_counts_once_witness :
    parseIter sampleExt ["", "id1", "bad", "37.37", "x,,y"] ⟨[], 7⟩ =
      Flow.next ⟨[], atomic_AddUint64 7 1⟩ :=
  parse_invalid_record_counts_once sampleExt "" "id1" "bad" "37.37" "x,,y" ⟨[], 7⟩
    (Or.inl rfl)

/-- C3 (as stated, refuted): the record has valid identifiers and coordinates and its app
list `42,x` holds the parseable element `42`, yet the parser worker enqueues nothing and
adds 1 to the error counter. -/
theorem parse_skip_unparseable_counterexample :
    "idfa1" ≠ "" ∧ "id1" ≠ "" ∧
    sampleExt.ParseFloat "55.55" = some (5555, 2) ∧
    sampleExt.ParseFloat "37.37" = some (3737, 2) ∧
    (∃ e ∈ strings_Split "42,x", ParseUint32 e = some 42) ∧
    parseIter sampleExt ["idfa1", "id1", "55.55", "37.37", "42,x"] ⟨[], 0⟩ =
      Flow.next ⟨[], 1⟩ ∧
    parseIter sampleExt ["idfa1", "id1", "55.55", "37.37", "42,x"] ⟨[], 0⟩ ≠
      Flow.next ⟨[⟨"idfa1", "id1", ⟨[42], (5555, 2), (3737, 2)⟩⟩], 0⟩ := by
  refine ⟨by decide, by decide, by decide, by decide, ⟨"42", by decide, by decide⟩,
    by decide, by decide⟩

/-- C3 (amended): for a 5-field record with non-empty device type and device id and
parseable latitude and longitude, the parser worker enqueues exactly one unit, whose app
ids are the parsed elements in their original order, and leaves the error counter
unchanged when every element of the app list parses; as soon as one element fails to
parse it enqueues nothing and adds exactly 1 to the error counter. -/
theorem parse_app_list_all_or_nothing {F : Type} [Zero F] (ext : Extern F)
    (f0 f1 f2 f3 f4 : String) (lat lon : F) (s : ParseShared F)
    (h0 : f0 ≠ "") (h1 : f1 ≠ "")
    (hlat : ext.ParseFloat f2 = some lat) (hlon : ext.ParseFloat f3 = some lon) :
    parseIter ext [f0, f1, f2, f3, f4] s =
      if (strings_Split f4).all (fun e => (ParseUint32 e).isSome) = true then
        Flow.next ⟨s.ch ++ [⟨f0, f1, ⟨(strings_Split f4).filterMap ParseUint32, lat, lon⟩⟩],
          s.numErrors⟩
      else Flow.next ⟨s.ch, atomic_AddUint64 s.numErrors 1⟩ := by
  have hconn : (strings_Split f4).any (fun a => (ParseUint32 a).isNone) =
      !(strings_Split f4).all (fun e => (ParseUint32 e).isSome) := by
    induction strings_Split f4 with
    | nil => rfl
    | cons a rest ih => cases ParseUint32 a <;> simp [ih]
  cases hall : (strings_Split f4).all (fun e => (ParseUint32 e).isSome) <;>
    simp [parseIter, parseBody_five, hlat, hlon, h0, h1, hconn, hall]

theorem parse_app_list_all_or_nothing_witness :
    parseIter sampleExt ["idfa1", "id1", "55.55", "37.37", "42,x"] ⟨[], 0⟩ =
      Flow.next ⟨[], atomic_AddUint64 0 1⟩ :=
  parse_app_list_all_or_nothing sampleExt "idfa1" "id1" "55.55" "37.37" "42,x"
    (5555, 2) (3737, 2) ⟨[], 0⟩ (by decide) (by decide) (by decide) (by decide)

/-- C10 (as stated, refuted): a 5-field record whose first field is `quit` is otherwise
valid, and the parser worker enqueues a unit whose device type is `quit`. -/
theorem parse_quit_device_type_counterexample :
    parseIter sampleExt ["quit", "id1", "55.55", "37.37", "42"] ⟨[], 0⟩ =
      Flow.next ⟨[⟨"quit", "id1", ⟨[42], (5555, 2), (3737, 2)⟩⟩], 0⟩ := by
  decide

/-- C10 (amended): for a 5-field record whose device type field is not `quit`, the parser
worker never enqueues a unit whose device type is `quit`: it either leaves the store
queue as it is, or appends one unit whose device type is field 0. -/
theorem parse_never_enqueues_quit {F : Type} [Zero F] (ext : Extern F)
    (f0 f1 f2 f3 f4 : String) (s : ParseShared F) (hq : f0 ≠ "quit") :
    ∃ s1, parseIter ext [f0, f1, f2, f3, f4] s = Flow.next s1 ∧
      (s1.ch = s.ch ∨
        ∃ u, s1.ch = s.ch ++ [u] ∧ u.dev_type = f0 ∧ u.dev_type ≠ "quit") := by
  cases hb : parseBody ext [f0, f1, f2, f3, f4] with
  | done =>
    rw [parseBody_five] at hb
    split at hb
    · split at hb <;> simp at hb
    · simp at hb
  | panic =>
    rw [parseBody_five] at hb
    split at hb
    · split at hb <;> simp at hb
    · simp at hb
  | countError =>
    exact ⟨⟨s.ch, atomic_AddUint64 s.numErrors 1⟩, by simp [parseIter, hb], Or.inl rfl⟩
  | send a =>
    refine ⟨⟨s.ch ++ [a], s.numErrors⟩, by simp [parseIter, hb], Or.inr ⟨a, rfl, ?_⟩⟩
    rw [parseBody_five] at hb
    split at hb
    · split at hb
      · simp at hb
      · simp only [ParseAction.send.injEq] at hb
        subst hb
        exact ⟨rfl, hq⟩
    · simp at hb

theorem parse_never_enqueues_quit_witness :
    ∃ s1, parseIter sampleExt ["idfa", "id1", "55.55", "37.37", "42"] ⟨[], 0⟩ = Flow.next s1 ∧
      (s1.ch = [] ∨ ∃ u, s1.ch = [] ++ [u] ∧ u.dev_type = "idfa" ∧ u.dev_type ≠ "quit") :=
  parse_never_enqueues_quit sampleExt "idfa" "id1" "55.55" "37.37" "42" ⟨[], 0⟩ (by decide)

/-! ## Store workers -/

/-- The registry built by `main` holds exactly the four shard names. -/
theorem lookup_initializeConn_main (idfa gaid adid dvid : String) (name : String) :
    (initializeConn (mainAddresses idfa gaid adid dvid)).lookup name =
      ((mainAddresses idfa gaid adid dvid).lookup name).map memcache_New := by
  by_cases h1 : name = "idfa"
  · subst h1; simp [initializeConn, mainAddresses, mapSet, List.lookup]
  · by_cases h2 : name = "gaid"
    · subst h2; simp [initializeConn, mainAddresses, mapSet, List.lookup]
    · by_cases h3 : name = "adid"
      · subst h3; simp [initializeConn, mainAddresses, mapSet, List.lookup]
      · by_cases h4 : name = "dvid"
        · subst h4; simp [initializeConn, mainAddresses, mapSet, List.lookup]
        · have e1 : (name == "idfa") = false := by simpa using h1
          have e2 : (name == "gaid") = false := by simpa using h2
          have e3 : (name == "adid") = false := by simpa using h3
          have e4 : (name == "dvid") = false := by simpa using h4
          simp [initializeConn, mainAddresses, mapSet, List.lookup, e1, e2, e3, e4]

/-- A unit that is not the sentinel, encodes, and has a client: `Set` is invoked once, and
the error counter moves exactly when that invocation fails. -/
theorem processIter_of_client {F : Type} (ext : Extern F) (clients : List (String × Client))
    (u : AppInfo F) (data : List Nat) (c : Client) (s : StoreShared)
    (hq : u.dev_type ≠ "quit") (hm : ext.Marshal u.app = some data)
    (hc : clients.lookup u.dev_type = some c) :
    processIter ext clients u s =
      Flow.next
        ⟨if ext.SetFails s.sets.length ⟨c, u.dev_type ++ ":" ++ u.dev_id, data⟩ = true then
            atomic_AddUint64 s.numErrors 1 else s.numErrors,
          s.sets ++ [⟨c, u.dev_type ++ ":" ++ u.dev_id, data⟩]⟩ := by
  simp only [processIter, hq, hm, hc, if_false]
  split <;> rfl

/-- A unit whose payload does not encode is dropped without a `Set` and without an error
count. -/
theorem processIter_of_marshal_error {F : Type} (ext : Extern F)
    (clients : List (String × Client)) (u : AppInfo F) (s : StoreShared)
    (hq : u.dev_type ≠ "quit") (hm : ext.Marshal u.app = none) :
    processIter ext clients u s = Flow.next s := by
  simp [processIter, hq, hm]

/-- After a unit that has a client the worker goes on with the next unit, whatever `Set`
returned: no retry, no return. -/
theorem process_cons_of_client {F : Type} (ext : Extern F) (clients : List (String × Client))
    (u : AppInfo F) (received : List (AppInfo F)) (data : List Nat) (c : Client)
    (s : StoreShared) (hq : u.dev_type ≠ "quit") (hm : ext.Marshal u.app = some data)
    (hc : clients.lookup u.dev_type = some c) :
    process ext clients (u :: received) s =
      process ext clients received
        ⟨if ext.SetFails s.sets.length ⟨c, u.dev_type ++ ":" ++ u.dev_id, data⟩ = true then
            atomic_AddUint64 s.numErrors 1 else s.numErrors,
          s.sets ++ [⟨c, u.dev_type ++ ":" ++ u.dev_id, data⟩]⟩ := by
  simp only [process, processIter_of_client ext clients u data c s hq hm hc]

/-- A `uint64` counter below its maximum goes up by exactly one. -/
theorem atomic_AddUint64_one (n : Nat) (h : n + 1 < two64) : atomic_AddUint64 n 1 = n + 1 :=
  Nat.mod_eq_of_lt h

/-- C5: for a unit whose device type is one of the registered shards, the store worker
invokes `Set` exactly once, on the client created for that device type, with the key
made of the device type, a colon and the device id (`idfa` and `abc123` give
`idfa:abc123`); for the sentinel unit it invokes no `Set` and returns. -/
theorem process_sets_once_with_key {F : Type} (ext : Extern F)
    (idfa gaid adid dvid : String) (u : AppInfo F) (data : List Nat) (s : StoreShared)
    (hreg : u.dev_type ∈ ["idfa", "gaid", "adid", "dvid"])
    (hm : ext.Marshal u.app = some data) :
    (∃ addr, (mainAddresses idfa gaid adid dvid).lookup u.dev_type = some addr ∧
      ∃ s1, processIter ext (initializeConn (mainAddresses idfa gaid adid dvid)) u s =
          Flow.next s1 ∧
        s1.sets = s.sets ++ [⟨memcache_New addr, u.dev_type ++ ":" ++ u.dev_id, data⟩]) ∧
    (∀ (w : Wrapper F) (bytes : List Nat), ext.Marshal w = some bytes →
      ∃ s1, processIter ext (initializeConn (mainAddresses idfa gaid adid dvid))
          ⟨"idfa", "abc123", w⟩ s = Flow.next s1 ∧
        s1.sets = s.sets ++ [⟨memcache_New idfa, "idfa:abc123", bytes⟩]) ∧
    (∀ (dev_id : String) (w : Wrapper F),
      processIter ext (initializeConn (mainAddresses idfa gaid adid dvid))
        ⟨"quit", dev_id, w⟩ s = Flow.returned s) := by
  refine ⟨?_, ?_, ?_⟩
  · have hq : u.dev_type ≠ "quit" := by
      intro h
      rw [h] at hreg
      exact absurd hreg (by decide)
    have hl : ∃ addr, (mainAddresses idfa gaid adid dvid).lookup u.dev_type = some addr := by
      simp only [List.mem_cons, List.mem_singleton, List.not_mem_nil, or_false] at hreg
      rcases hreg with h | h | h | h <;> rw [h] <;> simp [mainAddresses, List.lookup]
    obtain ⟨addr, haddr⟩ := hl
    refine ⟨addr, haddr, ?_⟩
    have hc : (initializeConn (mainAddresses idfa gaid adid dvid)).lookup u.dev_type =
        some (memcache_New addr) := by
      rw [lookup_initializeConn_main, haddr]; rfl
    rw [processIter_of_client ext _ u data (memcache_New addr) s hq hm hc]
    exact ⟨_, rfl, rfl⟩
  · intro w bytes hw
    have hc : (initializeConn (mainAddresses idfa gaid adid dvid)).lookup
        (⟨"idfa", "abc123", w⟩ : AppInfo F).dev_type = some (memcache_New idfa) := by
      rw [lookup_initializeConn_main]; simp [mainAddresses, List.lookup]
    have hq : (⟨"idfa", "abc123", w⟩ : AppInfo F).dev_type ≠ "quit" := by
      show "idfa" ≠ "quit"
      decide
    rw [processIter_of_client ext _ ⟨"idfa", "abc123", w⟩ bytes (memcache_New idfa) s
      hq hw hc]
    exact ⟨_, rfl, rfl⟩
  · intro dev_id w
    simp [processIter]

theorem process_sets_once_with_key_witness :
    (∃ addr, (mainAddresses "h1:1" "h2:2" "h3:3" "h4:4").lookup "gaid" = some addr ∧
      ∃ s1, processIter sampleExt (initializeConn (mainAddresses "h1:1" "h2:2" "h3:3" "h4:4"))
          ⟨"gaid", "id1", ⟨[42], (5555, 2), (3737, 2)⟩⟩ ⟨0, []⟩ = Flow.next s1 ∧
        s1.sets = [] ++ [⟨memcache_New addr, "gaid" ++ ":" ++ "id1", [42]⟩]) ∧
    (∀ (w : Wrapper (Nat × Nat)) (bytes : List Nat), sampleExt.Marshal w = some bytes →
      ∃ s1, processIter sampleExt (initializeConn (mainAddresses "h1:1" "h2:2" "h3:3" "h4:4"))
          ⟨"idfa", "abc123", w⟩ ⟨0, []⟩ = Flow.next s1 ∧
        s1.sets = [] ++ [⟨memcache_New "h1:1", "idfa:abc123", bytes⟩]) ∧
    (∀ (dev_id : String) (w : Wrapper (Nat × Nat)),
      processIter sampleExt (initializeConn (mainAddresses "h1:1" "h2:2" "h3:3" "h4:4"))
        ⟨"quit", dev_id, w⟩ ⟨0, []⟩ = Flow.returned ⟨0, []⟩) :=
  process_sets_once_with_key sampleExt "h1:1" "h2:2" "h3:3" "h4:4"
    ⟨"gaid", "id1", ⟨[42], (5555, 2), (3737, 2)⟩⟩ [42] ⟨0, []⟩ (by decide) (by decide)

/-- C4 (the code at the failing input): a unit whose device type `idfa1` has no client in
the registry built by `main` does not add to the error counter; once the payload is
encoded the store worker panics on the nil client, and with it the program. -/
theorem process_unknown_shard_panics {F : Type} (ext : Extern F)
    (idfa gaid adid dvid dev_id : String) (w : Wrapper F) (s : StoreShared) :
    processIter ext (initializeConn (mainAddresses idfa gaid adid dvid))
        ⟨"idfa1", dev_id, w⟩ s =
      if (ext.Marshal w).isSome = true then Flow.panicked else Flow.next s := by
  have hc : (initializeConn (mainAddresses idfa gaid adid dvid)).lookup "idfa1" = none := by
    rw [lookup_initializeConn_main]; simp [mainAddresses, List.lookup]
  cases hm : ext.Marshal w <;> simp [processIter, hm, hc]

/-! ## Line source -/

theorem readLoop_nil (s : ReadShared) :
    readLoop [] s = (readIter ⟨[], some ReadErr.EOF⟩ s).state := rfl

theorem readLoop_cons (r : ReadResult) (rs : List ReadResult) (s : ReadShared) :
    readLoop (r :: rs) s =
      match readIter r s with
      | Loop.again s1 => readLoop rs s1
      | Loop.broke s1 => s1 := rfl

/-- C6: a record reported with a wrong field count is not pushed onto the parse queue, adds
exactly 1 to the error counter (and 1 to the line counter), and the loop goes on with the
next read. -/
theorem readFiles_wrong_field_count_skipped (line : List String) (rs : List ReadResult)
    (s : ReadShared) :
    readIter ⟨line, some ReadErr.ErrFieldCount⟩ s =
      Loop.again ⟨s.parseCh, (s.numLines + 1) % two64, atomic_AddUint64 s.numErrors 1⟩ ∧
    readLoop (⟨line, some ReadErr.ErrFieldCount⟩ :: rs) s =
      readLoop rs ⟨s.parseCh, (s.numLines + 1) % two64, atomic_AddUint64 s.numErrors 1⟩ := by
  constructor
  · simp only [readIter, readBranch]
  · rw [readLoop_cons]
    simp only [readIter, readBranch]

/-- Without a read error other than the end of file and the field count, every line that
the inner loop of `readFiles` pushes has exactly 5 fields. -/
theorem readLoop_pushes_five_fields (rs : List ReadResult) (s : ReadShared)
    (hr : ∀ r ∈ rs, r.wellFormed ∧ r.err ≠ some ReadErr.other)
    (hs : ∀ l ∈ s.parseCh, l.length = 5) :
    ∀ l ∈ (readLoop rs s).parseCh, l.length = 5 := by
  induction rs generalizing s with
  | nil =>
    rw [readLoop_nil]
    exact hs
  | cons r rs ih =>
    have hrs : ∀ x ∈ rs, x.wellFormed ∧ x.err ≠ some ReadErr.other :=
      fun x hx => hr x (List.mem_cons_of_mem _ hx)
    obtain ⟨hwf, hother⟩ := hr r (List.mem_cons_self _ _)
    rw [readLoop_cons]
    cases he : r.err with
    | none =>
      have h5 := hwf he
      simp only [readIter, readBranch, he]
      apply ih _ hrs
      intro l hl
      rcases List.mem_append.mp hl with h | h
      · exact hs l h
      · rw [List.mem_singleton.mp h]; exact h5
    | some e =>
      cases e with
      | EOF =>
        simp only [readIter, readBranch, he]
        exact hs
      | ErrFieldCount =>
        simp only [readIter, readBranch, he]
        exact ih _ hrs hs
      | other => exact absurd he hother

/-- C9 (the code at the failing input): a read that fails with an error other than the end
of file and the field count, returning no fields, is pushed onto the parse queue as a
zero-length record, which a parser worker takes for the termination sentinel. -/
theorem readFiles_pushes_failed_read :
    ReadResult.wellFormed ⟨[], some ReadErr.other⟩ ∧
    readFiles [FileInput.stream [⟨[], some ReadErr.other⟩]] ⟨[], 0, 0⟩ = some ⟨[[]], 1, 0⟩ ∧
    parse sampleExt [[]] ⟨[], 0⟩ = Flow.returned ⟨[], 0⟩ := by
  refine ⟨?_, by decide, by decide⟩
  intro h
  exact absurd h (by decide)

/-! ## The counter invariant of the whole program -/

theorem countP_set_of_get? {α : Type} (p : α → Bool) :
    ∀ (l : List α) (i : Nat) (x y : α), l.get? i = some y →
      (l.set i x).countP p + (if p y then 1 else 0) = l.countP p + (if p x then 1 else 0)
  | [], _, _, _, h => by simp at h
  | a :: l, 0, x, y, h => by
    simp only [List.get?, Option.some.injEq] at h
    subst h
    simp only [List.set, List.countP_cons]
    omega
  | a :: l, i + 1, x, y, h => by
    simp only [List.get?] at h
    have ih := countP_set_of_get? p l i x y h
    simp only [List.set, List.countP_cons]
    omega

theorem uint64_succ_pred (n : Nat) (h : n < two64) :
    (two64 - 1 + (n + 1) % two64) % two64 = n := by
  unfold two64 at *
  omega

theorem quitLoopHead_remaining (workers i : Nat) :
    (quitLoopHead workers i).remaining = 0 := by
  unfold quitLoopHead
  split <;> rfl

theorem quitLoopHead_linesLeft (workers i : Nat) :
    (quitLoopHead workers i).linesLeft = 0 := by
  unfold quitLoopHead
  split <;> rfl

theorem quitLoopHead_holding (workers i : Nat) :
    (quitLoopHead workers i).holding = 0 := by
  unfold quitLoopHead
  split <;> rfl

theorem stepMain_inv {F : Type} [Zero F] (N T workers : Nat) (hN : N < two64)
    (s s1 : State F) (h : stepMain workers s = some s1) (hinv : CounterInv N T s) :
    CounterInv N T s1 := by
  obtain ⟨h1, h2, h3⟩ := hinv
  unfold stepMain at h
  split at h
  all_goals (try split at h)
  all_goals (try split at h)
  all_goals first | (simp only [Option.some.injEq] at h) | (simp at h)
  all_goals subst h
  all_goals
    simp only [CounterInv, inFlight, State.crash, quitLoopHead_remaining,
      quitLoopHead_holding, quitLoopHead_linesLeft] at *
  all_goals
    simp only [MainPc.remaining, MainPc.holding, MainPc.linesLeft, linesRead, beforeEOF,
      List.countP_append, List.countP_cons,
      List.countP_nil, List.length_cons, List.length_nil, inputSize, atomic_AddUint64, *] at *
  all_goals (try simp only [quitUnit, decide_not, ne_eq, not_true_eq_false, decide_True,
      decide_False, Bool.not_true, Bool.false_eq_true, if_false] at *)
  all_goals (unfold two64 at *; refine ⟨?_, ?_, ?_⟩ <;> (try split) <;> omega)

theorem parseBody_nil {F : Type} [Zero F] (ext : Extern F) :
    parseBody ext [] = ParseAction.done := by
  simp [parseBody]

theorem stepParser_inv {F : Type} [Zero F] (N T : Nat) (ext : Extern F)
    (i : Nat) (s s1 : State F) (h : stepParser ext i s = some s1) (hinv : CounterInv N T s) :
    CounterInv N T s1 := by
  obtain ⟨h1, h2, h3⟩ := hinv
  unfold stepParser at h
  split at h
  · rename_i hget
    have hexit := countP_set_of_get? ParserPc.isSending s.parsers i ParserPc.exited _ hget
    simp only [ParserPc.isSending, Bool.false_eq_true, if_false] at hexit
    split at h
    · rename_i line queue hq
      simp only [Option.some.injEq] at h
      subst h
      have hline : ∀ a, parseBody ext line = a → a ≠ ParseAction.done → line ≠ [] := by
        intro a ha hne hl
        subst hl
        rw [parseBody_nil] at ha
        exact hne ha.symm
      simp only [CounterInv, inFlight, hq, List.countP_cons] at h1 h2 h3
      unfold parserReceived
      split
      · split
        · simp only [CounterInv, inFlight, State.crash]
          refine ⟨?_, h2, h3⟩
          split at h1 <;> omega
        · simp only [CounterInv, inFlight]
          refine ⟨?_, h2, h3⟩
          split at h1 <;> omega
      · simp only [CounterInv, inFlight, State.crash]
        refine ⟨?_, h2, h3⟩
        split at h1 <;> omega
      · rename_i hb
        have hne := hline _ hb (by simp)
        simp only [CounterInv, inFlight, atomic_AddUint64]
        simp only [decide_not, hne, decide_False, Bool.not_false, if_true] at h1 ⊢
        refine ⟨?_, h2, h3⟩
        unfold two64 at *
        omega
      · rename_i a hb
        have hne := hline _ hb (by simp)
        have hsend := countP_set_of_get? ParserPc.isSending s.parsers i (ParserPc.sending a) _ hget
        simp only [ParserPc.isSending, Bool.false_eq_true, if_false, if_true] at hsend
        simp only [CounterInv, inFlight]
        simp only [decide_not, hne, decide_False, Bool.not_false, if_true] at h1 ⊢
        refine ⟨?_, h2, h3⟩
        omega
    · split at h
      · simp only [Option.some.injEq] at h
        subst h
        exact ⟨h1, h2, h3⟩
      · simp at h
  · rename_i a hget
    have hrecv := countP_set_of_get? ParserPc.isSending s.parsers i ParserPc.recv _ hget
    simp only [ParserPc.isSending, Bool.false_eq_true, if_false, if_true] at hrecv
    split at h
    · simp only [Option.some.injEq] at h
      subst h
      exact ⟨h1, h2, h3⟩
    · split at h
      · simp only [Option.some.injEq] at h
        subst h
        simp only [CounterInv, inFlight, List.countP_append, List.countP_cons,
          List.countP_nil] at *
        refine ⟨?_, h2, h3⟩
        split <;> omega
      · simp at h
  · simp at h
  · simp at h

/-- When a store iteration goes on, the unit was not the sentinel and the error counter is
either untouched or, after a `Set` on an existing client, incremented. -/
theorem processIter_next {F : Type} (ext : Extern F) (clients : List (String × Client))
    (u : AppInfo F) (st shared : StoreShared)
    (h : processIter ext clients u st = Flow.next shared) :
    u.dev_type ≠ "quit" ∧
      (shared.numErrors = st.numErrors ∨
        (shared.numErrors = atomic_AddUint64 st.numErrors 1 ∧
          ∃ c, clients.lookup u.dev_type = some c)) := by
  unfold processIter at h
  simp only at h
  split at h
  · simp at h
  · rename_i hq
    refine ⟨hq, ?_⟩
    split at h
    · simp only [Flow.next.injEq] at h
      subst h
      exact Or.inl rfl
    · split at h
      · simp at h
      · rename_i c hc
        split at h
        · simp only [Flow.next.injEq] at h
          subst h
          exact Or.inr ⟨rfl, c, hc⟩
        · simp only [Flow.next.injEq] at h
          subst h
          exact Or.inl rfl

theorem stepStore_inv {F : Type} [Zero F] (N T : Nat) (ext : Extern F)
    (clients : List (String × Client)) (hempty : clients.lookup "" = none)
    (i : Nat) (s s1 : State F) (h : stepStore ext clients i s = some s1)
    (hinv : CounterInv N T s) : CounterInv N T s1 := by
  obtain ⟨h1, h2, h3⟩ := hinv
  unfold stepStore at h
  split at h
  · split at h
    · rename_i u queue hq
      simp only [Option.some.injEq] at h
      subst h
      simp only [CounterInv, inFlight, hq, List.countP_cons] at h1 h2 h3
      unfold storeReceived
      split
      · rename_i shared hp
        obtain ⟨hne, hE⟩ := processIter_next ext clients u _ shared hp
        simp only [CounterInv, inFlight]
        simp only [hne, ne_eq, not_false_eq_true, decide_True, if_true] at h1
        refine ⟨?_, h2, h3⟩
        rcases hE with hE | ⟨hE, _⟩
        · rw [hE]
          simp only [ne_eq] at h1 ⊢
          omega
        · rw [hE]
          simp only [atomic_AddUint64, ne_eq] at h1 ⊢
          have := Nat.mod_le (s.numErrors + 1) two64
          omega
      · split
        · simp only [CounterInv, inFlight, State.crash]
          refine ⟨?_, h2, h3⟩
          split at h1 <;> omega
        · simp only [CounterInv, inFlight]
          refine ⟨?_, h2, h3⟩
          split at h1 <;> omega
      · simp only [CounterInv, inFlight, State.crash]
        refine ⟨?_, h2, h3⟩
        split at h1 <;> omega
    · split at h
      · simp only [Option.some.injEq] at h
        subst h
        unfold storeReceived
        split
        · rename_i shared hp
          obtain ⟨_, hE⟩ := processIter_next ext clients (zeroUnit F) _ shared hp
          rcases hE with hE | ⟨_, c, hc⟩
          · simp only [CounterInv, inFlight, hE]
            exact ⟨h1, h2, h3⟩
          · simp [zeroUnit, hempty] at hc
        · split
          · exact ⟨h1, h2, h3⟩
          · exact ⟨h1, h2, h3⟩
        · exact ⟨h1, h2, h3⟩
      · simp at h
  · simp at h
  · simp at h

/-- Every step of the program keeps the counter invariant. -/
theorem step_inv {F : Type} [Zero F] (N T workers : Nat) (hN : N < two64) (ext : Extern F)
    (clients : List (String × Client)) (hempty : clients.lookup "" = none)
    (a : Actor) (s s1 : State F) (h : step ext clients workers a s = some s1)
    (hinv : CounterInv N T s) : CounterInv N T s1 := by
  unfold step at h
  split at h
  · simp at h
  · split at h
    · simp at h
    · cases a with
      | main => exact stepMain_inv N T workers hN s s1 h hinv
      | parser i => exact stepParser_inv N T ext i s s1 h hinv
      | store i => exact stepStore_inv N T ext clients hempty i s s1 h hinv

/-- Every run of the program keeps the counter invariant. -/
theorem run_inv {F : Type} [Zero F] (N T workers : Nat) (hN : N < two64) (ext : Extern F)
    (clients : List (String × Client)) (hempty : clients.lookup "" = none) :
    ∀ (sched : List Actor) (s s1 : State F),
      run ext clients workers sched s = some s1 → CounterInv N T s → CounterInv N T s1
  | [], s, s1, h, hinv => by
    simp only [run, Option.some.injEq] at h
    subst h
    exact hinv
  | a :: rest, s, s1, h, hinv => by
    simp only [run] at h
    split at h
    · rename_i s2 hs
      exact run_inv N T workers hN ext clients hempty rest s2 s1 h
        (step_inv N T workers hN ext clients hempty a s s2 hs hinv)
    · simp at h

theorem initState_inv {F : Type} (workers : Nat) (files : List FileInput) :
    CounterInv (inputSize files) (linesRead files) (initState workers files : State F) := by
  have hc : List.countP ParserPc.isSending
      (List.replicate workers (ParserPc.recv : ParserPc F)) = 0 := by
    rw [List.countP_eq_zero]
    intro p hp
    rw [List.eq_of_mem_replicate hp]
    simp [ParserPc.isSending]
  simp [CounterInv, inFlight, initState, MainPc.holding, MainPc.remaining,
    MainPc.linesLeft, hc]

/-- C7: in every state the program reaches, under any interleaving of its goroutines and
any outcomes of the `Set` calls, the error counter does not exceed the line counter;
more precisely the errors counted plus the records still under way do not exceed the
lines counted, and the lines counted plus the records still to read are the records of
the input. The input has fewer than `2^64` reads, so that no `uint64` wraps around. -/
theorem errors_le_lines {F : Type} [Zero F] (ext : Extern F) (idfa gaid adid dvid : String)
    (workers : Nat) (files : List FileInput) (sched : List Actor) (s : State F)
    (hsize : inputSize files < two64)
    (hrun : run ext (initializeConn (mainAddresses idfa gaid adid dvid)) workers sched
      (initState workers files) = some s) :
    s.numErrors ≤ s.numLines ∧ s.numErrors + inFlight s ≤ s.numLines ∧
      s.numLines + s.main.linesLeft = linesRead files := by
  have hempty : (initializeConn (mainAddresses idfa gaid adid dvid)).lookup "" = none := by
    rw [lookup_initializeConn_main]; simp [mainAddresses, List.lookup]
  have hinv := run_inv (inputSize files) (linesRead files) workers hsize ext _ hempty sched
    _ s hrun (initState_inv workers files)
  obtain ⟨h1, _, h3⟩ := hinv
  exact ⟨by omega, h1, h3⟩

theorem errors_le_lines_witness :
    sampleFinal.numErrors ≤ sampleFinal.numLines ∧
      sampleFinal.numErrors + inFlight sampleFinal ≤ sampleFinal.numLines ∧
      sampleFinal.numLines + sampleFinal.main.linesLeft = linesRead sampleFiles :=
  errors_le_lines sampleExt "127.0.0.1:13101" "127.0.0.1:13102" "127.0.0.1:13103"
    "127.0.0.1:13104" 2 sampleFiles sampleSchedule sampleFinal (by decide) (by decide)

/-! ## Shutdown -/

theorem step_parser_absent {F : Type} [Zero F] (ext : Extern F)
    (clients : List (String × Client)) (workers i : Nat) (s : State F)
    (h : s.parsers.get? i = none) : step ext clients workers (Actor.parser i) s = none := by
  have hp : stepParser ext i s = none := by
    unfold stepParser
    rw [h]
  unfold step
  split
  · rfl
  · split
    · rfl
    · exact hp

theorem step_store_absent {F : Type} [Zero F] (ext : Extern F)
    (clients : List (String × Client)) (workers i : Nat) (s : State F)
    (h : s.stores.get? i = none) : step ext clients workers (Actor.store i) s = none := by
  have hp : stepStore ext clients i s = none := by
    unfold stepStore
    rw [h]
  unfold step
  split
  · rfl
  · split
    · rfl
    · exact hp

/-- C8 (the code at two failing inputs, one pair of workers): on a record of the
unregistered device type `idfa1` the store worker panics and the program dies; on 1001
valid records there is an interleaving after which `ch` is full, the store worker has
already taken the quit unit and returned, the parser worker is blocked on its send, `main`
is blocked in `parseWg.Wait()`, and no goroutine can ever move again. -/
theorem shutdown_crash_and_deadlock :
    (run sampleExt sampleClients 1 crashSchedule (initState 1 crashFiles)).map
        (fun s => s.crashed) = some true ∧
    run sampleExt sampleClients 1 deadlockSchedule (initState 1 deadlockFiles) =
        some deadlockState ∧
    deadlockState.main = MainPc.waitParse ∧ deadlockState.crashed = false ∧
    ∀ a, step sampleExt sampleClients 1 a deadlockState = none := by
  refine ⟨by decide, by decide!, rfl, rfl, ?_⟩
  intro a
  cases a with
  | main => decide
  | parser i =>
    cases i with
    | zero => decide!
    | succ j => exact step_parser_absent _ _ _ _ _ rfl
  | store i =>
    cases i with
    | zero => decide
    | succ j => exact step_store_absent _ _ _ _ _ rfl

end MemcLoad
